import Mathlib

/-!
Verification of the arXiv scraper (`src/main.py`).

Strings are modelled as `List Char`.  The pure text-processing core
(`convert_pdf_to_markdown`, lines 146-192 of `main.py`) is embedded as
Lean functions on `List Char`; the effectful orchestrator (`main`,
lines 194-288) is embedded as explicit state passing over a `RunState`
record holding the created directories, the files written so far and
the log of console messages.
-/

namespace ArxivScraper

/-! ## Text-processing core (convert_pdf_to_markdown, lines 160-185) -/

/-- `paragraph.replace('\n', ' ')` (line 181): a single-character
replacement in Python is a per-character map. -/
def nlToSpace (l : List Char) : List Char :=
  l.map fun c => if c = '\n' then ' ' else c

/-- The Unicode whitespace stripped by Python's `str.strip()`
(line 181): U+0009-U+000D, U+001C-U+001F, U+0020, U+0085, U+00A0,
U+1680, U+2000-U+200A, U+2028, U+2029, U+202F, U+205F and U+3000. -/
def isPySpace (c : Char) : Bool :=
  (9 ≤ c.toNat && c.toNat ≤ 13) || (28 ≤ c.toNat && c.toNat ≤ 31) ||
    c.toNat = 32 || c.toNat = 133 || c.toNat = 160 || c.toNat = 5760 ||
    (8192 ≤ c.toNat && c.toNat ≤ 8202) || c.toNat = 8232 ||
    c.toNat = 8233 || c.toNat = 8239 || c.toNat = 8287 || c.toNat = 12288

/-- Python `str.strip()` (line 181): drop leading and trailing whitespace. -/
def pyStrip (l : List Char) : List Char :=
  ((l.dropWhile isPySpace).reverse.dropWhile isPySpace).reverse

/-- `paragraph.replace('\n', ' ').strip()` (line 181). -/
def cleanParagraph (p : List Char) : List Char :=
  pyStrip (nlToSpace p)

/-- Python `text.split('\n\n')` (line 178): greedy left-to-right split on
the two-character separator; `''.split('\n\n') == ['']`. -/
def splitParas : List Char → List (List Char)
  | [] => [[]]
  | [c] => [[c]]
  | c1 :: c2 :: rest =>
    if c1 = '\n' ∧ c2 = '\n' then
      [] :: splitParas rest
    else
      match splitParas (c2 :: rest) with
      | [] => [[c1]]
      | p :: ps => (c1 :: p) :: ps

/-- Decimal rendering of a natural number, as Python's f-string `{page_num + 1}`
(line 175) produces.  Fuel-indexed so that the definition is structurally
recursive and kernel-reducible. -/
def natDecimalAux : Nat → Nat → List Char
  | 0, _ => []
  | fuel + 1, n =>
    if n < 10 then [Char.ofNat (48 + n)]
    else natDecimalAux fuel (n / 10) ++ [Char.ofNat (48 + n % 10)]

/-- Decimal digits of `n`, most significant first. -/
def natDecimal (n : Nat) : List Char := natDecimalAux (n + 1) n

/-- The text appended for one candidate paragraph (lines 179-183):
`clean_paragraph` followed by a blank line when non-empty, nothing
when empty. -/
def paraChunk (p : List Char) : List Char :=
  if cleanParagraph p = [] then [] else cleanParagraph p ++ ['\n', '\n']

/-- The paragraph part of one page's markdown (lines 177-183). -/
def pageBody (text : List Char) : List Char :=
  ((splitParas text).map paraChunk).flatten

/-- The full text appended for one page (lines 170-183):
`f"\n## Page {page_num + 1}\n\n"` followed by the paragraphs. -/
def pageChunk (pageNum : Nat) (text : List Char) : List Char :=
  '\n' :: (("## Page ").data ++ natDecimal (pageNum + 1)) ++
    '\n' :: '\n' :: pageBody text

/-- The loop of lines 170-183, starting at 0-based page index `i`. -/
def convertFrom : Nat → List (List Char) → List Char
  | _, [] => []
  | i, t :: rest => pageChunk i t ++ convertFrom (i + 1) rest

/-- `convert_pdf_to_markdown` (lines 146-185) as a function of the
per-page extracted text. -/
def convert_pdf_to_markdown (pages : List (List Char)) : List Char :=
  convertFrom 0 pages

/-! ## Headings in the generated markdown -/

/-- Split a text into its lines (boundaries at every `'\n'`). -/
def splitNL : List Char → List (List Char)
  | [] => [[]]
  | c :: rest =>
    if c = '\n' then [] :: splitNL rest
    else
      match splitNL rest with
      | [] => [[c]]
      | p :: ps => (c :: p) :: ps

/-- A line that is a level-2 heading of the form `## Page N` for a
decimal numeral `N`: it is `"## Page "` followed by a non-empty run of
digits. -/
def isPageHeading (line : List Char) : Bool :=
  line.take 8 = ("## Page ").data && !(line.drop 8).isEmpty &&
    (line.drop 8).all Char.isDigit

/-- The heading line emitted for page number `n` (1-based). -/
def headingLine (n : Nat) : List Char :=
  ("## Page ").data ++ natDecimal n

/-! ## Orchestrator model (main, lines 194-288)

The observable effects of `main` are modelled by explicit state
passing: directories created, PDF and markdown files written, and the
log of console messages.  A PDF file on disk is represented by its
observable behaviour under `pypdf`: either it is readable and yields a
list of per-page extracted texts, or reading it raises.  A paper
record carries its title and the outcome of `download_pdf`. -/

/-- The observable content of a PDF file on disk. -/
inductive PdfData where
  | ok (pages : List (List Char))
  | corrupt (msg : List Char)
deriving DecidableEq

/-- Outcome of `each_result.download_pdf(...)` (lines 264-265): either
the PDF is written, or an exception is raised. -/
inductive DownloadResult where
  | ok (content : PdfData)
  | err (msg : List Char)
deriving DecidableEq

/-- One search hit: a title plus the behaviour of its download. -/
structure PaperRecord where
  title : List Char
  download : DownloadResult
deriving DecidableEq

/-- One console message, one constructor per print call site of `main`
(lines 246, 260, 267, 279, 283, 287). -/
inductive LogEntry where
  | infoSearching (query : List Char)
  | infoDownloading (oneBasedIndex : Nat) (maxResults : Int) (title : List Char)
  | successDownloaded (title : List Char)
  | successConverted (title : List Char)
  | errorDownloading (title : List Char) (msg : List Char)
  | errorConverting (title : List Char) (msg : List Char)
deriving DecidableEq

/-- Observable state of one run: created directories, files written
under their paths, and the log. -/
@[ext] structure RunState where
  dirs : List Char → Bool
  pdfFiles : List Char → Option PdfData
  mdFiles : List Char → Option (List Char)
  log : List LogEntry

/-- Point update of a path-indexed map. -/
def update {α : Type} (f : List Char → Option α) (key : List Char) (v : α) :
    List Char → Option α :=
  fun q => if q = key then some v else f q

/-- Append one console message to the log. -/
def addLog (e : LogEntry) (st : RunState) : RunState :=
  { st with log := st.log ++ [e] }

/-- `os.makedirs(d, exist_ok=True)` (lines 254-255): record the
directory as present; never fails. -/
def mkdir (d : List Char) (st : RunState) : RunState :=
  { st with dirs := fun q => if q = d then true else st.dirs q }

/-- `convert_pdf_to_markdown` applied to a path (lines 146-192): a
missing file raises `FileNotFoundError`, an unreadable file raises
`PdfReadError`, otherwise the markdown text is returned.  Both error
cases re-raise to the caller (lines 187-192). -/
def convertFile (pdfFiles : List Char → Option PdfData) (path : List Char) :
    Except (List Char) (List Char) :=
  match pdfFiles path with
  | none => .error ("file not found").data
  | some (.corrupt e) => .error e
  | some (.ok pages) => .ok (convert_pdf_to_markdown pages)

/-- `arxiv.SortCriterion` (lines 226-234).  `parse_args` restricts
`--sort_by` to the three valid choices (line 130), so `main` is
modelled after the string-to-criterion mapping. -/
inductive SortCriterion where
  | relevance
  | lastUpdatedDate
  | submittedDate
deriving DecidableEq

/-- Parameters of `arxiv.Client(...)` (lines 220-222). -/
structure ClientConfig where
  page_size : Int
  delay_seconds : Int
  num_retries : Int
deriving DecidableEq

/-- Parameters of `arxiv.Search(...)` (lines 239-243). -/
structure SearchSpec where
  query : List Char
  max_results : Int
  sort_by : SortCriterion
deriving DecidableEq

/-- The lazy sequence produced by `client.results(search)`: the records
it yields, followed by an optional exception raised by the iteration
itself. -/
structure ResultStream where
  records : List PaperRecord
  iterError : Option (List Char)

/-- The external search client as a black box. -/
def Client : Type := ClientConfig → SearchSpec → ResultStream

/-- Command-line arguments (`parse_args`, lines 64-144). -/
structure Args where
  query_list : List (List Char)
  markdown : Bool
  page_size : Int
  delay_seconds : Int
  num_retries : Int
  max_results : Int
  sort_by : SortCriterion
  output_dir : List Char

/-- `each_query.replace(' ', '_')` (lines 250-251): a single-character
replacement is a per-character map. -/
def sanitizeQuery (q : List Char) : List Char :=
  q.map fun c => if c = ' ' then '_' else c

/-- `f"./pdfs/{each_query.replace(' ', '_')}/"` (line 250). -/
def pdfDirFor (q : List Char) : List Char :=
  ("./pdfs/").data ++ sanitizeQuery q ++ ("/").data

/-- `f"./mds/{each_query.replace(' ', '_')}/"` (line 251). -/
def mdDirFor (q : List Char) : List Char :=
  ("./mds/").data ++ sanitizeQuery q ++ ("/").data

/-- The body of the result loop (lines 258-288) for one enumerated
record: log the progress line, attempt the download; on failure log the
error and continue; on success log success and, when `--markdown` is
set, attempt the conversion, whose failure is caught and logged
(lines 281-283). -/
def processRecord (markdown : Bool) (maxResults : Int)
    (pdfDir mdDir : List Char) (st : RunState) (ir : Nat × PaperRecord) :
    RunState :=
  let st1 := addLog (.infoDownloading (ir.1 + 1) maxResults ir.2.title) st
  match ir.2.download with
  | .err e => addLog (.errorDownloading ir.2.title e) st1
  | .ok content =>
    let pdfPath := pdfDir ++ ir.2.title ++ (".pdf").data
    let st2 := { st1 with pdfFiles := update st1.pdfFiles pdfPath content }
    let st3 := addLog (.successDownloaded ir.2.title) st2
    if markdown then
      match convertFile st3.pdfFiles pdfPath with
      | .error e => addLog (.errorConverting ir.2.title e) st3
      | .ok md =>
        let st4 := { st3 with
          mdFiles := update st3.mdFiles (mdDir ++ ir.2.title ++ (".md").data) md }
        addLog (.successConverted ir.2.title) st4
    else st3

/-- Lines 246-255: log the searching message, then create both output
directories (pdfs first, then mds). -/
def queryInit (q : List Char) (st : RunState) : RunState :=
  mkdir (mdDirFor q) (mkdir (pdfDirFor q) (addLog (.infoSearching q) st))

/-- One iteration of the query loop (lines 237-288): obtain the result
stream, create the directories, fold the record loop over the
enumerated records, and report the stream's own iteration error (which
the loop body does not catch) to the caller. -/
def processQuery (markdown : Bool) (maxResults : Int) (cc : ClientConfig)
    (sortBy : SortCriterion) (client : Client) (st : RunState)
    (q : List Char) : RunState × Option (List Char) :=
  let stream := client cc { query := q, max_results := maxResults, sort_by := sortBy }
  let st1 := queryInit q st
  let st2 := (stream.records.enum).foldl
    (processRecord markdown maxResults (pdfDirFor q) (mdDirFor q)) st1
  (st2, stream.iterError)

/-- The query loop (line 237): an uncaught exception from a result
stream terminates the whole run; otherwise the next query is processed. -/
def runQueries (markdown : Bool) (maxResults : Int) (cc : ClientConfig)
    (sortBy : SortCriterion) (client : Client) :
    RunState → List (List Char) → RunState × Option (List Char)
  | st, [] => (st, none)
  | st, q :: qs =>
    match processQuery markdown maxResults cc sortBy client st q with
    | (st1, none) => runQueries markdown maxResults cc sortBy client st1 qs
    | (st1, some e) => (st1, some e)

/-- `main` (lines 194-288) after argument parsing: build the client
configuration and walk the query list.  `args.output_dir` is never
read. -/
def mainRun (args : Args) (client : Client) (st : RunState) :
    RunState × Option (List Char) :=
  runQueries args.markdown args.max_results
    ⟨args.page_size, args.delay_seconds, args.num_retries⟩
    args.sort_by client st args.query_list

/-- The log entries produced by one iteration of the record loop, as a
function of the enumerated record alone. -/
def recordLog (markdown : Bool) (maxResults : Int) (ir : Nat × PaperRecord) :
    List LogEntry :=
  .infoDownloading (ir.1 + 1) maxResults ir.2.title ::
    match ir.2.download with
    | .err e => [.errorDownloading ir.2.title e]
    | .ok content =>
      .successDownloaded ir.2.title ::
        if markdown then
          match content with
          | .corrupt e => [.errorConverting ir.2.title e]
          | .ok _ => [.successConverted ir.2.title]
        else []

/-- An empty initial state. -/
def initState : RunState :=
  ⟨fun _ => false, fun _ => none, fun _ => none, []⟩

/-- A client whose every search yields no results and no iteration
error. -/
def emptyClient : Client := fun _ _ => ⟨[], none⟩

/-- A record whose download succeeds with an empty readable PDF. -/
def rec1 : PaperRecord := ⟨("A").data, .ok (.ok [])⟩

/-- A record whose download raises. -/
def rec2 : PaperRecord := ⟨("B").data, .err ("boom").data⟩

/-- Another record whose download succeeds. -/
def rec3 : PaperRecord := ⟨("C").data, .ok (.ok [])⟩

/-- A one-query argument bundle with markdown conversion disabled. -/
def argsNoMd : Args :=
  ⟨[("q").data], false, 100, 10, 5, 10, .relevance, ("documents").data⟩

/-- A client whose result sequence raises during iteration for the
query `"bad"` and is empty and error-free for every other query. -/
def failClient : Client := fun _ s =>
  if s.query = ("bad").data then ⟨[], some ("iteration failed").data⟩
  else ⟨[], none⟩

/-! ## Lemmas about the text-processing core -/

theorem digitChar_isDigit (k : Nat) (hk : k < 10) :
    (Char.ofNat (48 + k)).isDigit = true := by
  interval_cases k <;> decide

theorem natDecimalAux_digits (fuel : Nat) :
    ∀ n c, c ∈ natDecimalAux fuel n → c.isDigit = true := by
  induction fuel with
  | zero => intro n c hc; simp [natDecimalAux] at hc
  | succ fuel ih =>
    intro n c hc
    by_cases h : n < 10
    · simp [natDecimalAux, h] at hc
      subst hc; exact digitChar_isDigit n h
    · simp [natDecimalAux, h] at hc
      rcases hc with hc | hc
      · exact ih _ _ hc
      · subst hc; exact digitChar_isDigit _ (Nat.mod_lt _ (by omega))

theorem natDecimal_ne_nil (n : Nat) : natDecimal n ≠ [] := by
  unfold natDecimal natDecimalAux
  by_cases h : n < 10 <;> simp [h]

theorem natDecimal_no_nl (n : Nat) : ∀ c ∈ natDecimal n, c ≠ '\n' := by
  intro c hc he
  have hd := natDecimalAux_digits (n + 1) n c hc
  subst he
  exact absurd hd (by decide)

theorem isPageHeading_nil : isPageHeading [] = false := by decide

theorem isPageHeading_headingLine (n : Nat) :
    isPageHeading (headingLine n) = true := by
  unfold isPageHeading headingLine
  rw [show (8 : Nat) = (("## Page ").data).length from rfl, List.take_left,
    List.drop_left]
  have h1 : (natDecimal n).isEmpty = false := by
    cases hnd : natDecimal n with
    | nil => exact absurd hnd (natDecimal_ne_nil n)
    | cons a l => rfl
  have h2 : (natDecimal n).all Char.isDigit = true :=
    List.all_eq_true.2 fun c hc => natDecimalAux_digits _ _ c hc
  rw [h1, h2]
  simp

theorem headingLine_no_nl (n : Nat) : ∀ c ∈ headingLine n, c ≠ '\n' := by
  intro c hc
  unfold headingLine at hc
  rw [List.mem_append] at hc
  rcases hc with hc | hc
  · intro he; subst he; revert hc; decide
  · exact natDecimal_no_nl n c hc

theorem splitNL_cons (c : Char) (rest : List Char) :
    splitNL (c :: rest) =
      if c = '\n' then [] :: splitNL rest
      else
        match splitNL rest with
        | [] => [[c]]
        | p :: ps => (c :: p) :: ps := rfl

theorem splitNL_nl_cons (b : List Char) :
    splitNL ('\n' :: b) = [] :: splitNL b := by
  rw [splitNL_cons]; simp

theorem splitNL_append_nl (a b : List Char) (h : ∀ c ∈ a, c ≠ '\n') :
    splitNL (a ++ '\n' :: b) = a :: splitNL b := by
  induction a with
  | nil => simpa using splitNL_nl_cons b
  | cons c a ih =>
    have hc : c ≠ '\n' := h c (by simp)
    have ih2 := ih fun x hx => h x (by simp [hx])
    show splitNL (c :: (a ++ '\n' :: b)) = (c :: a) :: splitNL b
    rw [splitNL_cons, if_neg hc, ih2]

theorem nlToSpace_no_nl (p : List Char) : ∀ c ∈ nlToSpace p, c ≠ '\n' := by
  intro c hc
  unfold nlToSpace at hc
  rw [List.mem_map] at hc
  rcases hc with ⟨c0, _, rfl⟩
  by_cases h : c0 = '\n'
  · simp [h]
  · simp [h]

theorem mem_pyStrip (l : List Char) (c : Char) (hc : c ∈ pyStrip l) :
    c ∈ l := by
  unfold pyStrip at hc
  rw [List.mem_reverse] at hc
  have h1 := (List.dropWhile_sublist (l := (l.dropWhile isPySpace).reverse)
    isPySpace).mem hc
  rw [List.mem_reverse] at h1
  exact (List.dropWhile_sublist (l := l) isPySpace).mem h1

theorem cleanParagraph_no_nl (p : List Char) :
    ∀ c ∈ cleanParagraph p, c ≠ '\n' :=
  fun c hc => nlToSpace_no_nl p c (mem_pyStrip _ c hc)

theorem cleanParagraph_eq_nil (p : List Char)
    (hp : ∀ c ∈ p, isPySpace c = true) : cleanParagraph p = [] := by
  have h1 : ∀ c ∈ nlToSpace p, isPySpace c = true := by
    intro c hc
    unfold nlToSpace at hc
    rw [List.mem_map] at hc
    rcases hc with ⟨c0, hc0, rfl⟩
    by_cases h : c0 = '\n'
    · simp [h]; decide
    · simp [h]; exact hp c0 hc0
  unfold cleanParagraph pyStrip
  rw [List.dropWhile_eq_nil_iff.2 h1]
  simp

theorem filter_splitNL_pageBody (ps : List (List Char)) (rest : List Char)
    (hnh : ∀ p ∈ ps, isPageHeading (cleanParagraph p) = false) :
    (splitNL ((ps.map paraChunk).flatten ++ rest)).filter isPageHeading
      = (splitNL rest).filter isPageHeading := by
  induction ps with
  | nil => simp
  | cons p ps ih =>
    have hp := hnh p (by simp)
    have hps : ∀ q ∈ ps, isPageHeading (cleanParagraph q) = false :=
      fun q hq => hnh q (by simp [hq])
    by_cases he : cleanParagraph p = []
    · simp only [List.map_cons, List.flatten_cons, paraChunk, if_pos he,
        List.nil_append]
      exact ih hps
    · have hnl := cleanParagraph_no_nl p
      have hstep : (p :: ps).map paraChunk
          = (cleanParagraph p ++ ['\n', '\n']) :: ps.map paraChunk := by
        simp [paraChunk, if_neg he]
      rw [hstep]
      have hgoal : (cleanParagraph p ++ ['\n', '\n'])
            ++ ((ps.map paraChunk).flatten ++ rest)
          = cleanParagraph p
            ++ '\n' :: ('\n' :: ((ps.map paraChunk).flatten ++ rest)) := by
        simp
      rw [List.flatten_cons, List.append_assoc, hgoal,
        splitNL_append_nl _ _ hnl, splitNL_nl_cons]
      simp only [List.filter_cons, hp, isPageHeading_nil]
      exact ih hps

theorem convertFrom_headings (pages : List (List Char)) :
    ∀ i, (∀ t ∈ pages, ∀ p ∈ splitParas t,
        isPageHeading (cleanParagraph p) = false) →
      (splitNL (convertFrom i pages)).filter isPageHeading
        = (List.range pages.length).map fun k => headingLine (i + k + 1) := by
  induction pages with
  | nil =>
    intro i _
    simp [convertFrom, splitNL, isPageHeading_nil]
  | cons t pages ih =>
    intro i h
    have ht := h t (by simp)
    have hrest : ∀ u ∈ pages, ∀ p ∈ splitParas u,
        isPageHeading (cleanParagraph p) = false :=
      fun u hu => h u (by simp [hu])
    have hshape : convertFrom i (t :: pages)
        = '\n' :: (headingLine (i + 1)
            ++ '\n' :: ('\n' :: (pageBody t ++ convertFrom (i + 1) pages))) := by
      show pageChunk i t ++ convertFrom (i + 1) pages = _
      unfold pageChunk headingLine
      simp
    rw [hshape, splitNL_nl_cons,
      splitNL_append_nl _ _ (headingLine_no_nl (i + 1)), splitNL_nl_cons]
    rw [List.filter_cons_of_neg (by simp [isPageHeading_nil]),
      List.filter_cons_of_pos (by simp [isPageHeading_headingLine (i + 1)]),
      List.filter_cons_of_neg (by simp [isPageHeading_nil])]
    rw [show pageBody t = ((splitParas t).map paraChunk).flatten from rfl,
      filter_splitNL_pageBody _ _ ht, ih (i + 1) hrest]
    simp only [List.length_cons, List.range_succ_eq_map, List.map_cons,
      List.map_map]
    have htail : List.map (fun k => headingLine (i + 1 + k + 1))
          (List.range pages.length)
        = List.map ((fun k => headingLine (i + k + 1)) ∘ Nat.succ)
          (List.range pages.length) := by
      refine List.map_congr_left fun k _ => ?_
      show headingLine (i + 1 + k + 1) = headingLine (i + Nat.succ k + 1)
      exact congrArg headingLine (by omega)
    rw [htail]

/-! ## Claim C1 -/

/-- C1: for every page, the raw text is split on blank-line boundaries
into candidate paragraphs; each candidate's internal line breaks are
replaced by single spaces and the result is trimmed; non-empty results
are appended followed by a blank line, empty results (in particular
whitespace-only paragraphs) are dropped; the raw text
`"Hello\nworld\n\nSecond  paragraph"` yields exactly the blocks
`"Hello world"` and `"Second  paragraph"` with internal multiple spaces
preserved. -/
theorem C1_paragraph_formatting (text p : List Char)
    (hp : ∀ c ∈ p, isPySpace c = true) :
    pageBody text = ((splitParas text).map cleanParagraph).flatMap
        (fun q => if q = [] then [] else q ++ ['\n', '\n'])
    ∧ paraChunk p = []
    ∧ convert_pdf_to_markdown [("Hello\nworld\n\nSecond  paragraph").data]
        = ("\n## Page 1\n\nHello world\n\nSecond  paragraph\n\n").data := by
  refine ⟨?_, ?_, by decide⟩
  · unfold pageBody
    rw [List.flatMap_def, List.map_map]
    rfl
  · simp [paraChunk, cleanParagraph_eq_nil p hp]

/-- C1 witness: a whitespace-only paragraph (including a no-break
space) produces no output. -/
theorem C1_paragraph_formatting_witness :
    paraChunk (" \t\u00A0 ").data = [] :=
  (C1_paragraph_formatting [] (" \t\u00A0 ").data (by decide)).2.1

/-! ## Claim C2 -/

/-- C2 counterexample: a one-page PDF whose extracted text is the single
line `"## Page 2"` produces a markdown text with two lines of the form
`## Page N`, not one, so the heading count does not always equal the
page count. -/
theorem C2_counterexample :
    ¬ (((splitNL (convert_pdf_to_markdown [("## Page 2").data])).filter
          isPageHeading).length
        = [("## Page 2").data].length) := by decide

/-- C2 (amended): provided no cleaned paragraph of any page is itself a
line of the form `## Page N`, the markdown output contains exactly
`pageCount` lines of the form `## Page N`, with `N` taking each value
`1..pageCount` exactly once, in increasing order of appearance. -/
theorem C2_page_headings (pages : List (List Char))
    (h : ∀ t ∈ pages, ∀ p ∈ splitParas t,
        isPageHeading (cleanParagraph p) = false) :
    (splitNL (convert_pdf_to_markdown pages)).filter isPageHeading
      = (List.range pages.length).map fun k => headingLine (k + 1) := by
  have h0 := convertFrom_headings pages 0 h
  simpa using h0

/-- C2 witness: a two-page PDF yields exactly the headings
`## Page 1` and `## Page 2`. -/
theorem C2_page_headings_witness :
    (splitNL (convert_pdf_to_markdown
        [("Hello\nworld").data, ("x").data])).filter isPageHeading
      = (List.range 2).map (fun k => headingLine (k + 1)) :=
  C2_page_headings [("Hello\nworld").data, ("x").data] (by decide)

/-! ## Lemmas about the orchestrator model -/

theorem update_self {α : Type} (f : List Char → Option α) (k : List Char)
    (v : α) : update f k v k = some v := by
  simp [update]

theorem runQueries_cons (markdown : Bool) (maxResults : Int)
    (cc : ClientConfig) (sortBy : SortCriterion) (client : Client)
    (st : RunState) (q : List Char) (qs : List (List Char)) :
    runQueries markdown maxResults cc sortBy client st (q :: qs)
      = match processQuery markdown maxResults cc sortBy client st q with
        | (st1, none) => runQueries markdown maxResults cc sortBy client st1 qs
        | (st1, some e) => (st1, some e) := rfl

theorem processQuery_snd (markdown : Bool) (maxResults : Int)
    (cc : ClientConfig) (sortBy : SortCriterion) (client : Client)
    (st : RunState) (q : List Char) :
    (processQuery markdown maxResults cc sortBy client st q).2
      = (client cc ⟨q, maxResults, sortBy⟩).iterError := rfl

theorem processRecord_log (markdown : Bool) (maxResults : Int)
    (pd mdd : List Char) (st : RunState) (ir : Nat × PaperRecord) :
    (processRecord markdown maxResults pd mdd st ir).log
      = st.log ++ recordLog markdown maxResults ir := by
  unfold processRecord recordLog
  cases hd : ir.2.download with
  | err e => simp [addLog]
  | ok content =>
    cases markdown with
    | false => simp [addLog]
    | true =>
      cases content with
      | ok pages => simp [addLog, convertFile, update_self]
      | corrupt e => simp [addLog, convertFile, update_self]

theorem foldl_processRecord_log (markdown : Bool) (maxResults : Int)
    (pd mdd : List Char) :
    ∀ (l : List (Nat × PaperRecord)) (st : RunState),
      (l.foldl (processRecord markdown maxResults pd mdd) st).log
        = st.log ++ l.flatMap (recordLog markdown maxResults) := by
  intro l
  induction l with
  | nil => intro st; simp
  | cons x l ih =>
    intro st
    rw [List.foldl_cons, ih, processRecord_log]
    simp

theorem processRecord_dirs (markdown : Bool) (maxResults : Int)
    (pd mdd : List Char) (st : RunState) (ir : Nat × PaperRecord) :
    (processRecord markdown maxResults pd mdd st ir).dirs = st.dirs := by
  unfold processRecord
  cases ir.2.download with
  | err e => simp [addLog]
  | ok content =>
    cases markdown with
    | false => simp [addLog]
    | true =>
      cases content with
      | ok pages => simp [addLog, convertFile, update_self]
      | corrupt e => simp [addLog, convertFile, update_self]

theorem foldl_processRecord_dirs (markdown : Bool) (maxResults : Int)
    (pd mdd : List Char) :
    ∀ (l : List (Nat × PaperRecord)) (st : RunState),
      (l.foldl (processRecord markdown maxResults pd mdd) st).dirs
        = st.dirs := by
  intro l
  induction l with
  | nil => intro st; rfl
  | cons x l ih =>
    intro st
    rw [List.foldl_cons, ih, processRecord_dirs]

theorem processRecord_mdFiles_false (maxResults : Int) (pd mdd : List Char)
    (st : RunState) (ir : Nat × PaperRecord) :
    (processRecord false maxResults pd mdd st ir).mdFiles = st.mdFiles := by
  unfold processRecord
  cases ir.2.download with
  | err e => simp [addLog]
  | ok content => simp [addLog]

theorem foldl_processRecord_mdFiles_false (maxResults : Int)
    (pd mdd : List Char) :
    ∀ (l : List (Nat × PaperRecord)) (st : RunState),
      (l.foldl (processRecord false maxResults pd mdd) st).mdFiles
        = st.mdFiles := by
  intro l
  induction l with
  | nil => intro st; rfl
  | cons x l ih =>
    intro st
    rw [List.foldl_cons, ih, processRecord_mdFiles_false]

theorem queryInit_pdfFiles (q : List Char) (st : RunState) :
    (queryInit q st).pdfFiles = st.pdfFiles := rfl

theorem queryInit_mdFiles (q : List Char) (st : RunState) :
    (queryInit q st).mdFiles = st.mdFiles := rfl

theorem processQuery_mdFiles_false (maxResults : Int) (cc : ClientConfig)
    (sortBy : SortCriterion) (client : Client) (st : RunState)
    (q : List Char) :
    (processQuery false maxResults cc sortBy client st q).1.mdFiles
      = st.mdFiles := by
  unfold processQuery
  simp only []
  rw [foldl_processRecord_mdFiles_false, queryInit_mdFiles]

theorem runQueries_mdFiles_false (maxResults : Int) (cc : ClientConfig)
    (sortBy : SortCriterion) (client : Client) :
    ∀ (qs : List (List Char)) (st : RunState),
      (runQueries false maxResults cc sortBy client st qs).1.mdFiles
        = st.mdFiles := by
  intro qs
  induction qs with
  | nil => intro st; rfl
  | cons q qs ih =>
    intro st
    rw [runQueries_cons]
    cases hpq : processQuery false maxResults cc sortBy client st q with
    | mk st1 oe =>
      have h1 : st1.mdFiles = st.mdFiles := by
        have := processQuery_mdFiles_false maxResults cc sortBy client st q
        rw [hpq] at this
        exact this
      cases oe with
      | none => simpa [h1] using ih st1
      | some e => simpa using h1

theorem processRecord_pdfFiles_away (markdown : Bool) (maxResults : Int)
    (pd mdd : List Char) (st : RunState) (ir : Nat × PaperRecord)
    (p : List Char) (hp : p ≠ pd ++ ir.2.title ++ (".pdf").data) :
    (processRecord markdown maxResults pd mdd st ir).pdfFiles p
      = st.pdfFiles p := by
  unfold processRecord
  cases ir.2.download with
  | err e => simp [addLog]
  | ok content =>
    cases markdown with
    | false =>
      simp [addLog, update]
      intro hpe
      exact absurd (by rw [hpe]; simp) hp
    | true =>
      cases content with
      | ok pages =>
        simp [addLog, convertFile, update_self, update]
        intro hpe
        exact absurd (by rw [hpe]; simp) hp
      | corrupt e =>
        simp [addLog, convertFile, update_self, update]
        intro hpe
        exact absurd (by rw [hpe]; simp) hp

theorem processRecord_mdFiles_away (markdown : Bool) (maxResults : Int)
    (pd mdd : List Char) (st : RunState) (ir : Nat × PaperRecord)
    (p : List Char) (hp : p ≠ mdd ++ ir.2.title ++ (".md").data) :
    (processRecord markdown maxResults pd mdd st ir).mdFiles p
      = st.mdFiles p := by
  unfold processRecord
  cases ir.2.download with
  | err e => simp [addLog]
  | ok content =>
    cases markdown with
    | false => simp [addLog]
    | true =>
      cases content with
      | ok pages =>
        simp [addLog, convertFile, update_self, update]
        intro hpe
        exact absurd (by rw [hpe]; simp) hp
      | corrupt e => simp [addLog, convertFile, update_self]

theorem foldl_processRecord_pdfFiles_away (markdown : Bool) (maxResults : Int)
    (pd mdd : List Char) :
    ∀ (l : List (Nat × PaperRecord)) (st : RunState) (p : List Char),
      (∀ ir ∈ l, p ≠ pd ++ ir.2.title ++ (".pdf").data) →
      (l.foldl (processRecord markdown maxResults pd mdd) st).pdfFiles p
        = st.pdfFiles p := by
  intro l
  induction l with
  | nil => intro st p _; rfl
  | cons x l ih =>
    intro st p hp
    rw [List.foldl_cons,
      ih _ _ fun ir hir => hp ir (by simp [hir]),
      processRecord_pdfFiles_away _ _ _ _ _ _ _ (hp x (by simp))]

theorem foldl_processRecord_mdFiles_away (markdown : Bool) (maxResults : Int)
    (pd mdd : List Char) :
    ∀ (l : List (Nat × PaperRecord)) (st : RunState) (p : List Char),
      (∀ ir ∈ l, p ≠ mdd ++ ir.2.title ++ (".md").data) →
      (l.foldl (processRecord markdown maxResults pd mdd) st).mdFiles p
        = st.mdFiles p := by
  intro l
  induction l with
  | nil => intro st p _; rfl
  | cons x l ih =>
    intro st p hp
    rw [List.foldl_cons,
      ih _ _ fun ir hir => hp ir (by simp [hir]),
      processRecord_mdFiles_away _ _ _ _ _ _ _ (hp x (by simp))]

theorem take_pdfRoot (q x : List Char) :
    (pdfDirFor q ++ x).take 7 = ("./pdfs/").data := by
  unfold pdfDirFor
  rw [List.append_assoc, List.append_assoc,
    show (7 : Nat) = (("./pdfs/").data).length from rfl, List.take_left]

theorem take_mdRoot (q x : List Char) :
    (mdDirFor q ++ x).take 6 = ("./mds/").data := by
  unfold mdDirFor
  rw [List.append_assoc, List.append_assoc,
    show (6 : Nat) = (("./mds/").data).length from rfl, List.take_left]

theorem processQuery_pdf_root (markdown : Bool) (maxResults : Int)
    (cc : ClientConfig) (sortBy : SortCriterion) (client : Client)
    (st : RunState) (q : List Char) (p : List Char)
    (hch : (processQuery markdown maxResults cc sortBy client st q).1.pdfFiles p
        ≠ st.pdfFiles p) :
    p.take 7 = ("./pdfs/").data := by
  by_contra hroot
  apply hch
  unfold processQuery
  simp only []
  rw [foldl_processRecord_pdfFiles_away, queryInit_pdfFiles]
  intro ir _ hpe
  apply hroot
  rw [hpe, List.append_assoc]
  exact take_pdfRoot q _

theorem processQuery_md_root (markdown : Bool) (maxResults : Int)
    (cc : ClientConfig) (sortBy : SortCriterion) (client : Client)
    (st : RunState) (q : List Char) (p : List Char)
    (hch : (processQuery markdown maxResults cc sortBy client st q).1.mdFiles p
        ≠ st.mdFiles p) :
    p.take 6 = ("./mds/").data := by
  by_contra hroot
  apply hch
  unfold processQuery
  simp only []
  rw [foldl_processRecord_mdFiles_away, queryInit_mdFiles]
  intro ir _ hpe
  apply hroot
  rw [hpe, List.append_assoc]
  exact take_mdRoot q _

theorem runQueries_pdf_root (markdown : Bool) (maxResults : Int)
    (cc : ClientConfig) (sortBy : SortCriterion) (client : Client) :
    ∀ (qs : List (List Char)) (st : RunState) (p : List Char),
      (runQueries markdown maxResults cc sortBy client st qs).1.pdfFiles p
          ≠ st.pdfFiles p →
      p.take 7 = ("./pdfs/").data := by
  intro qs
  induction qs with
  | nil => intro st p h; exact absurd rfl h
  | cons q qs ih =>
    intro st p h
    rw [runQueries_cons] at h
    cases hpq : processQuery markdown maxResults cc sortBy client st q with
    | mk st1 oe =>
      rw [hpq] at h
      cases oe with
      | none =>
        by_cases h2 :
            (runQueries markdown maxResults cc sortBy client st1 qs).1.pdfFiles p
              = st1.pdfFiles p
        · refine processQuery_pdf_root markdown maxResults cc sortBy client
            st q p ?_
          rw [hpq]
          intro hc
          exact h (by rw [h2]; exact hc)
        · exact ih st1 p h2
      | some e =>
        refine processQuery_pdf_root markdown maxResults cc sortBy client
          st q p ?_
        rw [hpq]
        exact h

theorem runQueries_md_root (markdown : Bool) (maxResults : Int)
    (cc : ClientConfig) (sortBy : SortCriterion) (client : Client) :
    ∀ (qs : List (List Char)) (st : RunState) (p : List Char),
      (runQueries markdown maxResults cc sortBy client st qs).1.mdFiles p
          ≠ st.mdFiles p →
      p.take 6 = ("./mds/").data := by
  intro qs
  induction qs with
  | nil => intro st p h; exact absurd rfl h
  | cons q qs ih =>
    intro st p h
    rw [runQueries_cons] at h
    cases hpq : processQuery markdown maxResults cc sortBy client st q with
    | mk st1 oe =>
      rw [hpq] at h
      cases oe with
      | none =>
        by_cases h2 :
            (runQueries markdown maxResults cc sortBy client st1 qs).1.mdFiles p
              = st1.mdFiles p
        · refine processQuery_md_root markdown maxResults cc sortBy client
            st q p ?_
          rw [hpq]
          intro hc
          exact h (by rw [h2]; exact hc)
        · exact ih st1 p h2
      | some e =>
        refine processQuery_md_root markdown maxResults cc sortBy client
          st q p ?_
        rw [hpq]
        exact h

theorem runQueries_no_iterError (markdown : Bool) (maxResults : Int)
    (cc : ClientConfig) (sortBy : SortCriterion) (client : Client)
    (hc : ∀ cc0 s, (client cc0 s).iterError = none) :
    ∀ (qs : List (List Char)) (st : RunState),
      (runQueries markdown maxResults cc sortBy client st qs).2 = none := by
  intro qs
  induction qs with
  | nil => intro st; rfl
  | cons q qs ih =>
    intro st
    rw [runQueries_cons]
    cases hpq : processQuery markdown maxResults cc sortBy client st q with
    | mk st1 oe =>
      have hq : oe = none := by
        have h2 := processQuery_snd markdown maxResults cc sortBy client st q
        rw [hpq] at h2
        simp at h2
        rw [h2]
        exact hc cc _
      subst hq
      exact ih st1

theorem enumFrom_get_mem {α : Type} (l : List α) :
    ∀ (n j : Nat) (hj : j < l.length),
      (n + j, l.get ⟨j, hj⟩) ∈ l.enumFrom n := by
  induction l with
  | nil => intro n j hj; simp at hj
  | cons a l ih =>
    intro n j hj
    cases j with
    | zero => simp [List.enumFrom_cons]
    | succ j =>
      rw [List.enumFrom_cons]
      refine List.mem_cons_of_mem _ ?_
      have h2 := ih (n + 1) j (by simpa using hj)
      have h3 : n + 1 + j = n + (j + 1) := by omega
      rw [h3] at h2
      exact h2

theorem processQuery_fst (markdown : Bool) (maxResults : Int)
    (cc : ClientConfig) (sortBy : SortCriterion) (client : Client)
    (st : RunState) (q : List Char) :
    (processQuery markdown maxResults cc sortBy client st q).1
      = ((client cc ⟨q, maxResults, sortBy⟩).records.enum).foldl
          (processRecord markdown maxResults (pdfDirFor q) (mdDirFor q))
          (queryInit q st) := rfl

theorem queryInit_dirs_pdf (q : List Char) (st : RunState) :
    (queryInit q st).dirs (pdfDirFor q) = true := by
  unfold queryInit mkdir addLog
  by_cases h : pdfDirFor q = mdDirFor q <;> simp [h]

theorem queryInit_dirs_md (q : List Char) (st : RunState) :
    (queryInit q st).dirs (mdDirFor q) = true := by
  unfold queryInit mkdir addLog
  simp

theorem mkdir_idem (d : List Char) (st : RunState) :
    mkdir d (mkdir d st) = mkdir d st := by
  unfold mkdir
  congr 1
  funext p
  by_cases h : p = d <;> simp [h]

/-! ## Claim C3 -/

/-- C3: the log of the record loop decomposes record by record, so a
failing download contributes exactly its own error line (which carries
the record's title) and every other record, before and after it, is
still processed and contributes its own progress line; with an
error-free result stream the run itself always completes. -/
theorem C3_download_failure_continues (markdown : Bool) (maxResults : Int)
    (pd mdd : List Char) (st : RunState) (recs : List PaperRecord)
    (i : Nat) (hi : i < recs.length) (e : List Char)
    (hf : (recs.get ⟨i, hi⟩).download = .err e)
    (args : Args) (client : Client) (st0 : RunState)
    (hc : ∀ cc0 s, (client cc0 s).iterError = none) :
    ((recs.enum.foldl (processRecord markdown maxResults pd mdd) st).log
        = st.log ++ recs.enum.flatMap (recordLog markdown maxResults))
    ∧ LogEntry.errorDownloading (recs.get ⟨i, hi⟩).title e
        ∈ (recs.enum.foldl (processRecord markdown maxResults pd mdd) st).log
    ∧ (∀ j (hj : j < recs.length),
        LogEntry.infoDownloading (j + 1) maxResults (recs.get ⟨j, hj⟩).title
          ∈ (recs.enum.foldl (processRecord markdown maxResults pd mdd) st).log)
    ∧ (mainRun args client st0).2 = none := by
  have hlog := foldl_processRecord_log markdown maxResults pd mdd recs.enum st
  have hf2 : recs[i].download = DownloadResult.err e := by
    simpa using hf
  refine ⟨hlog, ?_, ?_, ?_⟩
  · rw [hlog]
    refine List.mem_append_right _ ?_
    rw [List.mem_flatMap]
    refine ⟨(i, recs.get ⟨i, hi⟩), ?_, ?_⟩
    · have h2 := enumFrom_get_mem recs 0 i hi
      simpa using h2
    · simp [recordLog, hf2]
  · intro j hj
    rw [hlog]
    refine List.mem_append_right _ ?_
    rw [List.mem_flatMap]
    refine ⟨(j, recs.get ⟨j, hj⟩), ?_, ?_⟩
    · have h2 := enumFrom_get_mem recs 0 j hj
      simpa using h2
    · simp [recordLog]
  · exact runQueries_no_iterError args.markdown args.max_results _
      args.sort_by client hc args.query_list st0

/-- C3 witness: in a three-record sequence whose second download fails,
the error line for the failing title is in the final log. -/
theorem C3_witness :
    LogEntry.errorDownloading ("B").data ("boom").data
      ∈ (([rec1, rec2, rec3].enum).foldl
          (processRecord false 10 ("./pdfs/q/").data ("./mds/q/").data)
          initState).log :=
  (C3_download_failure_continues false 10 ("./pdfs/q/").data
    ("./mds/q/").data initState [rec1, rec2, rec3] 1 (by decide)
    ("boom").data (by decide) argsNoMd emptyClient initState
    (fun _ _ => rfl)).2.1

/-! ## Claim C4 -/

/-- C4: when a record's download succeeds but the PDF is unreadable and
markdown conversion is enabled, the conversion failure is logged (with
the record's title), the downloaded PDF file is exactly as the download
wrote it, no markdown file is written, and the next record is still
processed normally. -/
theorem C4_conversion_failure_frame (maxResults : Int) (pd mdd : List Char)
    (st : RunState) (idx : Nat) (e : List Char) (r r2 : PaperRecord)
    (hdl : r.download = .ok (.corrupt e)) :
    ((processRecord true maxResults pd mdd st (idx, r)).pdfFiles
        = update st.pdfFiles (pd ++ r.title ++ (".pdf").data) (.corrupt e))
    ∧ (processRecord true maxResults pd mdd st (idx, r)).mdFiles = st.mdFiles
    ∧ ((processRecord true maxResults pd mdd st (idx, r)).log
        = st.log ++ [.infoDownloading (idx + 1) maxResults r.title,
            .successDownloaded r.title, .errorConverting r.title e])
    ∧ ((processRecord true maxResults pd mdd
          (processRecord true maxResults pd mdd st (idx, r)) (idx + 1, r2)).log
        = (processRecord true maxResults pd mdd st (idx, r)).log
            ++ recordLog true maxResults (idx + 1, r2)) := by
  refine ⟨?_, ?_, ?_,
    processRecord_log true maxResults pd mdd _ (idx + 1, r2)⟩
  · unfold processRecord
    simp [hdl, addLog, convertFile, update_self]
  · unfold processRecord
    simp [hdl, addLog, convertFile, update_self]
  · unfold processRecord
    simp [hdl, addLog, convertFile, update_self]

/-- C4 witness: a failed conversion writes no markdown file. -/
theorem C4_witness :
    (processRecord true 10 ("./pdfs/q/").data ("./mds/q/").data initState
        (0, ⟨("T").data, .ok (.corrupt ("bad xref").data)⟩)).mdFiles
      = initState.mdFiles :=
  (C4_conversion_failure_frame 10 ("./pdfs/q/").data ("./mds/q/").data
    initState 0 ("bad xref").data
    ⟨("T").data, .ok (.corrupt ("bad xref").data)⟩ rec1 rfl).2.1

/-! ## Claim C5 -/

/-- C5: an exception raised by the result sequence itself is not caught:
the run terminates at that query with the error, after fully processing
the preceding queries and the records the failing query's stream did
yield, and the following queries are never reached. -/
theorem C5_stream_error_terminates (markdown : Bool) (maxResults : Int)
    (cc : ClientConfig) (sortBy : SortCriterion) (client : Client)
    (st : RunState) (qsPre : List (List Char)) (q : List Char)
    (qsPost : List (List Char)) (e : List Char)
    (hpre : ∀ q0 ∈ qsPre,
      (client cc ⟨q0, maxResults, sortBy⟩).iterError = none)
    (hq : (client cc ⟨q, maxResults, sortBy⟩).iterError = some e) :
    runQueries markdown maxResults cc sortBy client st (qsPre ++ q :: qsPost)
      = ((processQuery markdown maxResults cc sortBy client
            (qsPre.foldl (fun s q0 =>
              (processQuery markdown maxResults cc sortBy client s q0).1) st)
            q).1,
          some e) := by
  induction qsPre generalizing st with
  | nil =>
    rw [List.nil_append, runQueries_cons]
    cases hpq : processQuery markdown maxResults cc sortBy client st q with
    | mk st1 oe =>
      have hoe : oe = some e := by
        have h2 := processQuery_snd markdown maxResults cc sortBy client st q
        rw [hpq] at h2
        simp at h2
        rw [h2, hq]
      subst hoe
      simp only [List.foldl_nil]
      rw [hpq]
  | cons q0 qsPre ih =>
    have h0 : (client cc ⟨q0, maxResults, sortBy⟩).iterError = none :=
      hpre q0 (by simp)
    have hrest : ∀ q1 ∈ qsPre,
        (client cc ⟨q1, maxResults, sortBy⟩).iterError = none :=
      fun q1 hq1 => hpre q1 (by simp [hq1])
    rw [List.cons_append, runQueries_cons]
    cases hpq0 : processQuery markdown maxResults cc sortBy client st q0 with
    | mk st1 oe =>
      have hoe : oe = none := by
        have h2 := processQuery_snd markdown maxResults cc sortBy client st q0
        rw [hpq0] at h2
        simp at h2
        rw [h2, h0]
      subst hoe
      have hst1 : (processQuery markdown maxResults cc sortBy client st q0).1
          = st1 := by
        rw [hpq0]
      rw [List.foldl_cons, hst1]
      exact ih st1 hrest

/-- C5 witness: with queries good, bad, after — where iterating bad's
stream raises — the run ends with that error. -/
theorem C5_witness :
    (runQueries false 10 ⟨100, 10, 5⟩ SortCriterion.relevance failClient
        initState
        ([("good").data] ++ ("bad").data :: [("after").data])).2
      = some ("iteration failed").data := by
  rw [C5_stream_error_terminates false 10 ⟨100, 10, 5⟩
    SortCriterion.relevance failClient initState [("good").data]
    ("bad").data [("after").data] ("iteration failed").data
    (by decide) (by decide)]

/-! ## Claim C6 -/

/-- C6 counterexample: for the query `"a\tb"` the created pdfs
subdirectory keeps the tab character; the name with every whitespace
character replaced by an underscore (`"a_b"`) is not created, so the
directory name is not the query with every whitespace character
replaced. -/
theorem C6_counterexample :
    (processQuery false 10 ⟨100, 10, 5⟩ SortCriterion.relevance emptyClient
        initState ("a\tb").data).1.dirs (("./pdfs/a_b/").data) = false
    ∧ (processQuery false 10 ⟨100, 10, 5⟩ SortCriterion.relevance emptyClient
        initState ("a\tb").data).1.dirs (("./pdfs/a\tb/").data) = true :=
  ⟨by decide, by decide⟩

/-- C6 (amended): the per-query output subdirectories are named by the
query text with every space character `' '` (only spaces, not other
whitespace) replaced by an underscore: processing a query creates
exactly the directories `./pdfs/<q-spaces-to-underscores>/` and
`./mds/<q-spaces-to-underscores>/`. -/
theorem C6_sanitize (markdown : Bool) (maxResults : Int) (cc : ClientConfig)
    (sortBy : SortCriterion) (client : Client) (st : RunState)
    (q p : List Char) :
    (processQuery markdown maxResults cc sortBy client st q).1.dirs p = true
      ↔ (p = ("./pdfs/").data ++ (q.map fun c => if c = ' ' then '_' else c)
            ++ ("/").data
        ∨ p = ("./mds/").data ++ (q.map fun c => if c = ' ' then '_' else c)
            ++ ("/").data
        ∨ st.dirs p = true) := by
  rw [processQuery_fst, foldl_processRecord_dirs]
  unfold queryInit mkdir addLog pdfDirFor mdDirFor sanitizeQuery
  by_cases h1 : p = ("./mds/").data
      ++ (q.map fun c => if c = ' ' then '_' else c) ++ ("/").data
  · simp [h1]
  · by_cases h2 : p = ("./pdfs/").data
        ++ (q.map fun c => if c = ' ' then '_' else c) ++ ("/").data
    · simp [h1, h2]
    · simp [h1, h2]
      tauto

/-! ## Claim C7 -/

/-- C7: two runs whose arguments differ only in output_dir are
identical in every observable (the flag is never read), and every file
written by a run lies under the fixed roots ./pdfs/ and ./mds/. -/
theorem C7_output_dir_irrelevant (args : Args) (d : List Char)
    (client : Client) (st : RunState) :
    mainRun { args with output_dir := d } client st = mainRun args client st
    ∧ (∀ p, (mainRun args client st).1.pdfFiles p ≠ st.pdfFiles p →
        p.take 7 = ("./pdfs/").data)
    ∧ (∀ p, (mainRun args client st).1.mdFiles p ≠ st.mdFiles p →
        p.take 6 = ("./mds/").data) := by
  refine ⟨rfl, ?_, ?_⟩
  · intro p h
    exact runQueries_pdf_root args.markdown args.max_results _ args.sort_by
      client args.query_list st p h
  · intro p h
    exact runQueries_md_root args.markdown args.max_results _ args.sort_by
      client args.query_list st p h

/-- C7 witness: changing only output_dir leaves the run's outcome
unchanged. -/
theorem C7_witness :
    mainRun ⟨[("q").data], false, 100, 10, 5, 10, .relevance, ("a").data⟩
        emptyClient initState
      = mainRun argsNoMd emptyClient initState :=
  (C7_output_dir_irrelevant argsNoMd ("a").data emptyClient initState).1

/-! ## Claim C8 -/

/-- C8: both per-query output directories exist in the state entering
the record loop (hence before any download attempt of that query), the
record loop never changes the directory set, directory creation is
idempotent, and both directories are present after the query is
processed. -/
theorem C8_directories (markdown : Bool) (maxResults : Int)
    (cc : ClientConfig) (sortBy : SortCriterion) (client : Client)
    (st st0 : RunState) (q d pd mdd : List Char) (ir : Nat × PaperRecord) :
    (queryInit q st).dirs (pdfDirFor q) = true
    ∧ (queryInit q st).dirs (mdDirFor q) = true
    ∧ (processRecord markdown maxResults pd mdd st0 ir).dirs = st0.dirs
    ∧ mkdir d (mkdir d st) = mkdir d st
    ∧ (processQuery markdown maxResults cc sortBy client st q).1.dirs
        (pdfDirFor q) = true
    ∧ (processQuery markdown maxResults cc sortBy client st q).1.dirs
        (mdDirFor q) = true := by
  refine ⟨queryInit_dirs_pdf q st, queryInit_dirs_md q st,
    processRecord_dirs markdown maxResults pd mdd st0 ir,
    mkdir_idem d st, ?_, ?_⟩
  · rw [processQuery_fst, foldl_processRecord_dirs]
    exact queryInit_dirs_pdf q st
  · rw [processQuery_fst, foldl_processRecord_dirs]
    exact queryInit_dirs_md q st

/-! ## Claim C9 -/

/-- C9: the conversion is a deterministic pure function of the stored
PDF content: whenever two file states assign the same content to the
given paths, the conversion outcomes are byte-identical. -/
theorem C9_conversion_pure (fs1 fs2 : List Char → Option PdfData)
    (p1 p2 : List Char) (h : fs1 p1 = fs2 p2) :
    convertFile fs1 p1 = convertFile fs2 p2 := by
  unfold convertFile
  rw [h]

/-- C9 witness: converting the same stored PDF twice (even under
different paths) yields identical markdown. -/
theorem C9_witness :
    convertFile (update (fun _ => none) ("./pdfs/q/T.pdf").data
        (.ok [("Hello").data])) ("./pdfs/q/T.pdf").data
      = convertFile (update (fun _ => none) ("./pdfs/r/T.pdf").data
        (.ok [("Hello").data])) ("./pdfs/r/T.pdf").data :=
  C9_conversion_pure _ _ _ _ (by decide)

/-! ## Claim C10 -/

/-- C10: the mds subdirectory for a query is created even when markdown
conversion is disabled, and such a run writes no markdown files at all,
so each per-query mds directory stays empty. -/
theorem C10_md_dir_without_markdown (maxResults : Int) (cc : ClientConfig)
    (sortBy : SortCriterion) (client client2 : Client) (st st2 : RunState)
    (q : List Char) (args : Args) (hmd : args.markdown = false) :
    (processQuery false maxResults cc sortBy client st q).1.dirs
        (mdDirFor q) = true
    ∧ (processQuery false maxResults cc sortBy client st q).1.mdFiles
        = st.mdFiles
    ∧ (mainRun args client2 st2).1.mdFiles = st2.mdFiles := by
  refine ⟨?_, processQuery_mdFiles_false maxResults cc sortBy client st q, ?_⟩
  · rw [processQuery_fst, foldl_processRecord_dirs]
    exact queryInit_dirs_md q st
  · unfold mainRun
    rw [hmd]
    exact runQueries_mdFiles_false args.max_results _ args.sort_by client2
      args.query_list st2

/-- C10 witness: a markdown-disabled run leaves the markdown file map
untouched. -/
theorem C10_witness :
    (mainRun argsNoMd emptyClient initState).1.mdFiles
      = initState.mdFiles :=
  (C10_md_dir_without_markdown 10 ⟨100, 10, 5⟩ SortCriterion.relevance
    emptyClient emptyClient initState initState ("q").data argsNoMd
    rfl).2.2

end ArxivScraper
